import Mathlib

/-!
Verification of the backtrace-capture and symbolization engine of
`src/jni/main.c` (android-ndk-backtrace-test).

The C code is shallowly embedded:
* `struct sigcontext` (the ARM register snapshot inside the `ucontext_t`
  delivered to the signal handler) becomes the record `SigContext`;
* `struct BacktraceState` becomes `BacktraceState`; the fixed array
  `uintptr_t addresses[30]` together with `size_t address_count` is modelled
  as the list of its first `address_count` slots (slots past the count are
  never read by the C code), so the count is the list's length;
* `_Unwind_Context` is modelled as its observable general-purpose register
  file (`_Unwind_GetIP` / `_Unwind_SetGR` are the only accesses the code
  makes); `_URC_NO_REASON` / `_URC_END_OF_STACK` become `ReasonCode`;
* the `#if __thumb__` build conditional becomes an explicit `thumb : Bool`
  parameter, so theorems cover both Thumb and non-Thumb builds;
* external platform functions (`unw_step`, `dladdr`, `__cxa_demangle`) are
  parameters of the model: a libunwind cursor walk is given by the list of
  instruction pointers its successive successful `unw_step` calls produce,
  `dladdr` by a `Nat → Option Dl_info` function, `__cxa_demangle` by a
  `String → Option String` function (`none` = demangling failed, returns NULL).
Machine integers (`uintptr_t`, `size_t`) are modelled as `Nat`: the only
arithmetic the code performs on them is `ip &= ~1` (clearing bit 0, which
cannot overflow) and the pointer subtraction in `PrintBacktrace`, which is
modelled with an explicit wrap-around at `2 ^ w` for a word width `w`.
-/

set_option maxRecDepth 4000

/-- `static const size_t address_count_max = 30;` (main.c line 51). -/
def address_count_max : Nat := 30

/-- The ARM register fields of `struct sigcontext` that `main.c` reads
(`arm_r0 … arm_r10, arm_fp, arm_ip, arm_sp, arm_lr, arm_pc`). -/
structure SigContext where
  arm_r0 : Nat
  arm_r1 : Nat
  arm_r2 : Nat
  arm_r3 : Nat
  arm_r4 : Nat
  arm_r5 : Nat
  arm_r6 : Nat
  arm_r7 : Nat
  arm_r8 : Nat
  arm_r9 : Nat
  arm_r10 : Nat
  arm_fp : Nat
  arm_ip : Nat
  arm_sp : Nat
  arm_lr : Nat
  arm_pc : Nat
deriving DecidableEq

/-- `struct BacktraceState` (main.c lines 53-67).  `addresses` is the list of
the first `address_count` slots of the fixed `uintptr_t addresses[30]` array,
so `addresses.length` is the C `address_count` field. -/
structure BacktraceState where
  signal_mcontext : SigContext
  address_skip_count : Nat
  addresses : List Nat
deriving DecidableEq

/-- The C `address_count` field of `struct BacktraceState`. -/
def BacktraceState.address_count (s : BacktraceState) : Nat :=
  s.addresses.length

/-- `BacktraceState_Init` (main.c lines 71-77): `memset(state, 0, …)` (empty
address array, zero count), bind the signal context, set
`address_skip_count = 3`. -/
def BacktraceState_Init (mctx : SigContext) : BacktraceState :=
  { signal_mcontext := mctx, address_skip_count := 3, addresses := [] }

/-- `ip &= ~thumb_bit` with `thumb_bit = 1` (main.c lines 88-89): clear bit 0. -/
def clearThumbBit (ip : Nat) : Nat :=
  ip - ip % 2

/-- The address actually used by `BacktraceState_AddAddress` after the
`#if __thumb__` block: on Thumb builds the Thumb bit is cleared, otherwise
the address is unchanged. -/
def stripAddr (thumb : Bool) (ip : Nat) : Nat :=
  if thumb then clearThumbBit ip else ip

/-- `BacktraceState_AddAddress` (main.c lines 79-114).  Returns the C `bool`
result together with the state after the call.  In order, as in the source:
fail if the storage is full; clear the Thumb bit (Thumb builds only); if the
count is positive, silently accept null addresses and an address equal to the
immediately preceding stored one; otherwise append and increment the count. -/
def BacktraceState_AddAddress (thumb : Bool) (s : BacktraceState) (ip : Nat) :
    Bool × BacktraceState :=
  if address_count_max ≤ s.addresses.length then
    (false, s)
  else
    let ip := stripAddr thumb ip
    if 0 < s.addresses.length then
      if ip = 0 then
        (true, s)
      else if s.addresses.getLast? = some ip then
        (true, s)
      else
        (true, { s with addresses := s.addresses ++ [ip] })
    else
      (true, { s with addresses := s.addresses ++ [ip] })

/-- A sequence of `BacktraceState_AddAddress` calls, one per list element
(the C callers ignore or act on each `bool` separately; the state threads
through unchanged on a `false` return, so folding the state sums up any call
sequence). -/
def RunAddAddressCalls (thumb : Bool) : BacktraceState → List Nat → BacktraceState
  | s, [] => s
  | s, ip :: rest =>
      RunAddAddressCalls thumb (BacktraceState_AddAddress thumb s ip).2 rest

-- Basic facts about `BacktraceState_AddAddress`, shared by the claim theorems.

theorem addAddress_of_full (thumb : Bool) (s : BacktraceState) (ip : Nat)
    (h : address_count_max ≤ s.addresses.length) :
    BacktraceState_AddAddress thumb s ip = (false, s) := by
  simp [BacktraceState_AddAddress, h]

theorem addAddress_true_of_not_full (thumb : Bool) (s : BacktraceState) (ip : Nat)
    (h : s.addresses.length < address_count_max) :
    (BacktraceState_AddAddress thumb s ip).1 = true := by
  simp only [BacktraceState_AddAddress, Nat.not_le.mpr h, if_false]
  split
  · split
    · rfl
    · split <;> rfl
  · rfl

theorem addAddress_addresses_cases (thumb : Bool) (s : BacktraceState) (ip : Nat) :
    (BacktraceState_AddAddress thumb s ip).2.addresses = s.addresses ∨
      (BacktraceState_AddAddress thumb s ip).2.addresses =
        s.addresses ++ [stripAddr thumb ip] := by
  simp only [BacktraceState_AddAddress]
  split
  · exact Or.inl rfl
  · split
    · split
      · exact Or.inl rfl
      · split
        · exact Or.inl rfl
        · exact Or.inr rfl
    · exact Or.inr rfl

theorem addAddress_length_le (thumb : Bool) (s : BacktraceState) (ip : Nat)
    (h : s.addresses.length ≤ address_count_max) :
    (BacktraceState_AddAddress thumb s ip).2.addresses.length ≤ address_count_max := by
  by_cases hfull : address_count_max ≤ s.addresses.length
  · rw [addAddress_of_full thumb s ip hfull]
    exact h
  · rcases addAddress_addresses_cases thumb s ip with hc | hc <;> rw [hc]
    · exact h
    · simp only [List.length_append, List.length_cons, List.length_nil]
      omega

theorem runAddAddressCalls_length_le (thumb : Bool) (ips : List Nat)
    (s : BacktraceState) (h : s.addresses.length ≤ address_count_max) :
    (RunAddAddressCalls thumb s ips).addresses.length ≤ address_count_max := by
  induction ips generalizing s with
  | nil => exact h
  | cons ip rest ih =>
      exact ih _ (addAddress_length_le thumb s ip h)

/-- `_Unwind_Reason_Code`: the two values the callbacks return
(`_URC_NO_REASON`, `_URC_END_OF_STACK`). -/
inductive ReasonCode where
  | noReason
  | endOfStack
deriving DecidableEq

/-- `struct _Unwind_Context`, modelled by its observable ARM general-purpose
register file R0–R15 (the code only calls `_Unwind_SetGR` on `REG_R0` …
`REG_R15` and `_Unwind_GetIP`). -/
structure UnwindContext where
  gr : Fin 16 → Nat

/-- `_Unwind_SetGR(context, i, v)`. -/
def UnwindSetGR (c : UnwindContext) (i : Fin 16) (v : Nat) : UnwindContext :=
  ⟨fun j => if j = i then v else c.gr j⟩

/-- `_Unwind_GetIP(context)`: on ARM the instruction pointer is R15. -/
def UnwindGetIP (c : UnwindContext) : Nat :=
  c.gr 15

/-- The register file that `ProcessRegisters` writes: slot `i` receives the
`sigcontext` field passed for `REG_Ri` in main.c lines 191-206. -/
def sigRegs (m : SigContext) (i : Fin 16) : Nat :=
  match i.val with
  | 0 => m.arm_r0
  | 1 => m.arm_r1
  | 2 => m.arm_r2
  | 3 => m.arm_r3
  | 4 => m.arm_r4
  | 5 => m.arm_r5
  | 6 => m.arm_r6
  | 7 => m.arm_r7
  | 8 => m.arm_r8
  | 9 => m.arm_r9
  | 10 => m.arm_r10
  | 11 => m.arm_fp
  | 12 => m.arm_ip
  | 13 => m.arm_sp
  | 14 => m.arm_lr
  | _ => m.arm_pc

/-- `ProcessRegisters` (main.c lines 180-212): sixteen `_Unwind_SetGR` calls
copying the fault context's registers into the unwind context, then
`BacktraceState_AddAddress(state, signal_mcontext->arm_pc)` (the `bool`
result is discarded, as in the source). -/
def ProcessRegisters (thumb : Bool) (uc : UnwindContext) (s : BacktraceState) :
    UnwindContext × BacktraceState :=
  let m := s.signal_mcontext
  let uc := UnwindSetGR uc 0 m.arm_r0
  let uc := UnwindSetGR uc 1 m.arm_r1
  let uc := UnwindSetGR uc 2 m.arm_r2
  let uc := UnwindSetGR uc 3 m.arm_r3
  let uc := UnwindSetGR uc 4 m.arm_r4
  let uc := UnwindSetGR uc 5 m.arm_r5
  let uc := UnwindSetGR uc 6 m.arm_r6
  let uc := UnwindSetGR uc 7 m.arm_r7
  let uc := UnwindSetGR uc 8 m.arm_r8
  let uc := UnwindSetGR uc 9 m.arm_r9
  let uc := UnwindSetGR uc 10 m.arm_r10
  let uc := UnwindSetGR uc 11 m.arm_fp
  let uc := UnwindSetGR uc 12 m.arm_ip
  let uc := UnwindSetGR uc 13 m.arm_sp
  let uc := UnwindSetGR uc 14 m.arm_lr
  let uc := UnwindSetGR uc 15 m.arm_pc
  (uc, (BacktraceState_AddAddress thumb s m.arm_pc).2)

/-- `UnwindBacktraceWithRegistersCallback` (main.c lines 214-235): on the
first invocation (`address_count == 0`) call `ProcessRegisters` and continue;
afterwards read the frame's IP, add it, and stop once the collector reports
the buffer full.  Returns the reason code, the (possibly written-to) unwind
context, and the state after the call. -/
def UnwindBacktraceWithRegistersCallback (thumb : Bool) (uc : UnwindContext)
    (s : BacktraceState) : ReasonCode × UnwindContext × BacktraceState :=
  if s.addresses.length = 0 then
    let r := ProcessRegisters thumb uc s
    (ReasonCode.noReason, r.1, r.2)
  else
    let ip := UnwindGetIP uc
    let r := BacktraceState_AddAddress thumb s ip
    if r.1 then (ReasonCode.noReason, uc, r.2)
    else (ReasonCode.endOfStack, uc, r.2)

/-- `UnwindBacktraceWithSkippingCallback` (main.c lines 247-268): while the
skip counter is positive, decrement it and continue without touching the
addresses; afterwards read the frame's IP, add it, and stop once the
collector reports the buffer full. -/
def UnwindBacktraceWithSkippingCallback (thumb : Bool) (uc : UnwindContext)
    (s : BacktraceState) : ReasonCode × BacktraceState :=
  if 0 < s.address_skip_count then
    (ReasonCode.noReason,
      { s with address_skip_count := s.address_skip_count - 1 })
  else
    let ip := UnwindGetIP uc
    let r := BacktraceState_AddAddress thumb s ip
    if r.1 then (ReasonCode.noReason, r.2)
    else (ReasonCode.endOfStack, r.2)

/-- The `while (unw_step(&unw_cursor) > 0)` loop of `LibunwindWithRegisters`
(main.c lines 163-172).  The libunwind cursor is external to the repository;
the walk it yields is modelled by the list of instruction pointers read back
(`unw_get_reg(…, UNW_REG_IP, …)`) after each successful `unw_step`, the end
of the list being `unw_step` reporting no further frame.  Each IP is added
via the collector and the loop breaks on the first rejected insertion. -/
def LibunwindSteps (thumb : Bool) : List Nat → BacktraceState → BacktraceState
  | [], s => s
  | ip :: rest, s =>
      let r := BacktraceState_AddAddress thumb s ip
      if r.1 then LibunwindSteps thumb rest r.2 else r.2

/-- `LibunwindWithRegisters` (main.c lines 119-173): after seeding the cursor
registers from the fault context (cursor state is external and carried by
`steps`), manually add `signal_mcontext->arm_pc` (result discarded, as in the
source), then run the step loop. -/
def LibunwindWithRegisters (thumb : Bool) (steps : List Nat)
    (s : BacktraceState) : BacktraceState :=
  LibunwindSteps thumb steps
    (BacktraceState_AddAddress thumb s s.signal_mcontext.arm_pc).2

/-- `Dl_info` as used by `PrintBacktrace`: the module load base
(`dli_fbase`) and the symbol name (`dli_sname`, `none` when the C field is
NULL). -/
structure Dl_info where
  dli_fbase : Nat
  dli_sname : Option String
deriving DecidableEq

/-- One rendered backtrace line of `PrintBacktrace`
(`printf("  #%02zu:  0x%lx  %s\n", frame_index, relative_address,
symbol_name)`), kept as its three fields. -/
structure ResolvedFrame where
  frame_index : Nat
  relative_address : Nat
  symbol_name : String
deriving DecidableEq

/-- `(char*)address - (char*)fbase` cast to `unsigned long`: pointer
subtraction with wrap-around at the word width `w` (32 on the ARM targets,
64 on 64-bit builds). -/
def ptrDiff (w a b : Nat) : Nat :=
  (a + 2 ^ w - b % 2 ^ w) % 2 ^ w

/-- One iteration of the `PrintBacktrace` loop body (main.c lines 282-313)
for a given frame index and address.  `none` means the `assert(address)`
fired (a stored null address aborts the print).  `lookup` models `dladdr`
(`none` = lookup failed; on failure `Dl_info info = {}` stays zeroed, so the
base is null and the symbol name stays `""`), `demangle` models
`__cxa_demangle` (`none` = returns NULL, the original name is kept). -/
def SymbolizeAddress (w : Nat) (lookup : Nat → Option Dl_info)
    (demangle : String → Option String) (frame_index address : Nat) :
    Option ResolvedFrame :=
  if address = 0 then
    none
  else
    let info := lookup address
    let symbol_name :=
      match info with
      | some i =>
          match i.dli_sname with
          | some n => n
          | none => ""
      | none => ""
    let fbase :=
      match info with
      | some i => i.dli_fbase
      | none => 0
    let relative_address := ptrDiff w address fbase
    let symbol_name :=
      match demangle symbol_name with
      | some d => d
      | none => symbol_name
    some { frame_index := frame_index, relative_address := relative_address,
           symbol_name := symbol_name }

/-- The `PrintBacktrace` loop from a given starting frame index over the
remaining addresses; `none` as soon as one iteration's `assert(address)`
fires. -/
def PrintBacktraceFrom (w : Nat) (lookup : Nat → Option Dl_info)
    (demangle : String → Option String) :
    Nat → List Nat → Option (List ResolvedFrame)
  | _, [] => some []
  | i, a :: rest =>
      match SymbolizeAddress w lookup demangle i a with
      | none => none
      | some f =>
          match PrintBacktraceFrom w lookup demangle (i + 1) rest with
          | none => none
          | some fs => some (f :: fs)

/-- `PrintBacktrace` (main.c lines 278-314): render every stored address in
order, starting at frame index 0. -/
def PrintBacktrace (w : Nat) (lookup : Nat → Option Dl_info)
    (demangle : String → Option String) (s : BacktraceState) :
    Option (List ResolvedFrame) :=
  PrintBacktraceFrom w lookup demangle 0 s.addresses

/-- An all-zero fault context used by concrete witnesses. -/
def mctx0 : SigContext :=
  { arm_r0 := 0, arm_r1 := 0, arm_r2 := 0, arm_r3 := 0, arm_r4 := 0,
    arm_r5 := 0, arm_r6 := 0, arm_r7 := 0, arm_r8 := 0, arm_r9 := 0,
    arm_r10 := 0, arm_fp := 0, arm_ip := 0, arm_sp := 0, arm_lr := 0,
    arm_pc := 0 }

/-- A fault context whose program counter has the Thumb bit set. -/
def mctxOdd : SigContext :=
  { mctx0 with arm_pc := 5 }

/-- An all-zero unwind context used by concrete witnesses. -/
def uctx0 : UnwindContext :=
  ⟨fun _ => 0⟩

/-- An unwind context whose IP register (R15) holds 77. -/
def uctx77 : UnwindContext :=
  ⟨fun j => if j = 15 then 77 else 0⟩

/-- A state holding 30 addresses (1 … 30): the collector at full capacity. -/
def fullState30 : BacktraceState :=
  RunAddAddressCalls false (BacktraceState_Init mctx0) (List.range' 1 30)

/-- A state holding the two addresses 0 and 5 (a leading null address is
stored when the collector is empty, see `claim_leading_null_then_assert`). -/
def state05 : BacktraceState :=
  RunAddAddressCalls false (BacktraceState_Init mctx0) [0, 5]

theorem addAddress_empty (thumb : Bool) (s : BacktraceState) (ip : Nat)
    (h : s.addresses = []) :
    BacktraceState_AddAddress thumb s ip =
      (true, { s with addresses := [stripAddr thumb ip] }) := by
  simp [BacktraceState_AddAddress, h, address_count_max]

-- Claim theorems.

/-- C1: for every sequence of `AddAddress` calls on an initialized
`BacktraceState`, the stored address count never exceeds the capacity of 30;
once the count equals 30, any further `AddAddress` call returns failure and
leaves the count and all previously stored entries unchanged. -/
theorem claim_capacity_invariant (thumb : Bool) (mctx : SigContext)
    (ips : List Nat) :
    (RunAddAddressCalls thumb (BacktraceState_Init mctx) ips).address_count ≤
      address_count_max ∧
    ∀ s ip, s.address_count = address_count_max →
      BacktraceState_AddAddress thumb s ip = (false, s) := by
  constructor
  · exact runAddAddressCalls_length_le thumb ips _ (by
      simp [BacktraceState_Init, address_count_max])
  · intro s ip h
    exact addAddress_of_full thumb s ip (le_of_eq h.symm)

/-- Witness for C1: a 31-call sequence stays at count ≤ 30, and a full state
rejects the next call unchanged. -/
theorem claim_capacity_invariant_witness :
    (RunAddAddressCalls false (BacktraceState_Init mctx0)
        (List.range' 1 31)).address_count ≤ address_count_max ∧
    BacktraceState_AddAddress false fullState30 0 = (false, fullState30) :=
  ⟨(claim_capacity_invariant false mctx0 (List.range' 1 31)).1,
   (claim_capacity_invariant false mctx0 []).2 fullState30 0 (by decide)⟩

/-- C10: `AddAddress` reports failure if and only if the buffer is already
full (count equals 30) at the time of the call; below capacity it reports
success for every input address, including the ones it silently ignores. -/
theorem claim_failure_iff_full (thumb : Bool) (s : BacktraceState) (ip : Nat) :
    (BacktraceState_AddAddress thumb s ip).1 = false ↔
      address_count_max ≤ s.address_count := by
  show _ ↔ address_count_max ≤ s.addresses.length
  by_cases hfull : address_count_max ≤ s.addresses.length
  · simp [addAddress_of_full thumb s ip hfull, hfull]
  · simp [addAddress_true_of_not_full thumb s ip (Nat.lt_of_not_le hfull), hfull]

/-- C5: on Thumb builds, an address submitted to `AddAddress` with the
instruction-set mode bit set behaves exactly like the address with the bit
cleared (it is compared and stored with the bit cleared). -/
theorem claim_thumb_bit_stripped (s : BacktraceState) (ip : Nat)
    (hodd : ip % 2 = 1) :
    BacktraceState_AddAddress true s ip = BacktraceState_AddAddress true s (ip - 1) ∧
    ((BacktraceState_AddAddress true s ip).2.addresses = s.addresses ∨
      (BacktraceState_AddAddress true s ip).2.addresses =
        s.addresses ++ [ip - 1]) := by
  have h1 : stripAddr true ip = ip - 1 := by
    simp only [stripAddr, clearThumbBit, if_pos]
    omega
  have h2 : stripAddr true (ip - 1) = ip - 1 := by
    simp only [stripAddr, clearThumbBit, if_pos]
    omega
  constructor
  · simp only [BacktraceState_AddAddress, h1, h2]
  · have := addAddress_addresses_cases true s ip
    rwa [h1] at this

/-- Witness for C5: submitting 5 to an empty collector on a Thumb build
stores 4. -/
theorem claim_thumb_bit_stripped_witness :
    (5 : Nat) % 2 = 1 ∧
    (BacktraceState_AddAddress true (BacktraceState_Init mctx0) 5 =
        BacktraceState_AddAddress true (BacktraceState_Init mctx0) 4 ∧
      ((BacktraceState_AddAddress true (BacktraceState_Init mctx0) 5).2.addresses =
          (BacktraceState_Init mctx0).addresses ∨
        (BacktraceState_AddAddress true (BacktraceState_Init mctx0) 5).2.addresses =
          (BacktraceState_Init mctx0).addresses ++ [4])) :=
  ⟨by decide, claim_thumb_bit_stripped (BacktraceState_Init mctx0) 5 (by decide)⟩

/-- C4 counterexample: a full collector (which certainly holds at least one
address) answers a null address with failure, not success — the capacity
check precedes the null filter. -/
theorem claim_null_ignored_cex :
    0 < fullState30.address_count ∧
    BacktraceState_AddAddress false fullState30 0 = (false, fullState30) := by
  constructor
  · decide
  · exact addAddress_of_full false fullState30 0 (by decide)

/-- C4 (amended): for every state holding at least one address and fewer
than 30, `AddAddress` with a null address leaves the state unchanged and
reports success. -/
theorem claim_null_ignored (thumb : Bool) (s : BacktraceState)
    (h1 : 0 < s.address_count) (h2 : s.address_count < address_count_max) :
    BacktraceState_AddAddress thumb s 0 = (true, s) := by
  have hz : stripAddr thumb 0 = 0 := by
    cases thumb <;> simp [stripAddr, clearThumbBit]
  have h1' : 0 < s.addresses.length := h1
  have h2' : ¬ address_count_max ≤ s.addresses.length := Nat.not_le.mpr h2
  simp [BacktraceState_AddAddress, h1', h2', hz]

/-- Witness for C4: the state `[0, 5]` absorbs a null address unchanged. -/
theorem claim_null_ignored_witness :
    0 < state05.address_count ∧ state05.address_count < address_count_max ∧
    BacktraceState_AddAddress false state05 0 = (true, state05) :=
  ⟨by decide, by decide, claim_null_ignored false state05 (by decide) (by decide)⟩

/-- C3 counterexample: in the state `[0, 5]` the incoming address 0 equals
the earlier, non-last entry (a different address, 5, lies in between), yet
the call does not append it — the null filter silently drops it. -/
theorem claim_dedup_last_only_cex :
    state05.addresses = [0, 5] ∧
    state05.addresses.head? = some 0 ∧
    state05.addresses.getLast? = some 5 ∧
    BacktraceState_AddAddress false state05 0 = (true, state05) ∧
    (BacktraceState_AddAddress false state05 0).2.addresses ≠
      state05.addresses ++ [0] := by
  refine ⟨by decide, by decide, by decide, by decide, by decide⟩

/-- C3 (amended): for every state holding at least one and fewer than 30
addresses, an incoming address equal (after the Thumb strip) to the
immediately preceding stored entry is a no-op reporting success, and a
nonzero incoming address different from the immediately preceding entry is
appended normally — regardless of any match with earlier entries. -/
theorem claim_dedup_last_only (thumb : Bool) (s : BacktraceState) (ip : Nat)
    (h1 : 0 < s.address_count) (h2 : s.address_count < address_count_max) :
    (s.addresses.getLast? = some (stripAddr thumb ip) →
      BacktraceState_AddAddress thumb s ip = (true, s)) ∧
    (stripAddr thumb ip ≠ 0 →
      s.addresses.getLast? ≠ some (stripAddr thumb ip) →
      BacktraceState_AddAddress thumb s ip =
        (true, { s with addresses := s.addresses ++ [stripAddr thumb ip] })) := by
  have h1' : 0 < s.addresses.length := h1
  have h2' : ¬ address_count_max ≤ s.addresses.length := Nat.not_le.mpr h2
  constructor
  · intro hlast
    by_cases hz : stripAddr thumb ip = 0
    · simp [BacktraceState_AddAddress, h1', h2', hz]
    · simp [BacktraceState_AddAddress, h1', h2', hz, hlast]
  · intro hz hlast
    simp [BacktraceState_AddAddress, h1', h2', hz, hlast]

/-- Witness for C3: in the state `[0, 5]`, re-adding 5 is a no-op with
success, while adding the fresh address 7 appends it. -/
theorem claim_dedup_last_only_witness :
    BacktraceState_AddAddress false state05 5 = (true, state05) ∧
    BacktraceState_AddAddress false state05 7 =
      (true, { state05 with addresses := state05.addresses ++ [stripAddr false 7] }) :=
  ⟨(claim_dedup_last_only false state05 5 (by decide) (by decide)).1 (by decide),
   (claim_dedup_last_only false state05 7 (by decide) (by decide)).2
     (by decide) (by decide)⟩

theorem printBacktraceFrom_none_of_mem_zero (w : Nat)
    (lookup : Nat → Option Dl_info) (demangle : String → Option String)
    (l : List Nat) (n : Nat) (h : 0 ∈ l) :
    PrintBacktraceFrom w lookup demangle n l = none := by
  induction l generalizing n with
  | nil => cases h
  | cons a rest ih =>
      rcases List.mem_cons.mp h with ha | ha
      · simp [PrintBacktraceFrom, SymbolizeAddress, ← ha]
      · simp only [PrintBacktraceFrom]
        cases SymbolizeAddress w lookup demangle n a with
        | none => rfl
        | some f => rw [ih (n + 1) ha]

/-- C9: a null address offered to a freshly initialized state (count zero)
IS appended and counted — the null filter only applies when an address is
already stored — and `PrintBacktrace` then hits its `assert(address)` on the
stored null instead of rendering it. -/
theorem claim_leading_null_then_assert (thumb : Bool) (mctx : SigContext) :
    BacktraceState_AddAddress thumb (BacktraceState_Init mctx) 0 =
      (true, { BacktraceState_Init mctx with addresses := [0] }) ∧
    ∀ w lookup demangle s, 0 ∈ BacktraceState.addresses s →
      PrintBacktrace w lookup demangle s = none := by
  constructor
  · have hz : stripAddr thumb 0 = 0 := by
      cases thumb <;> simp [stripAddr, clearThumbBit]
    rw [addAddress_empty thumb _ 0 rfl, hz]
  · intro w lookup demangle s hmem
    exact printBacktraceFrom_none_of_mem_zero w lookup demangle s.addresses 0 hmem

/-- Witness for C9: the concrete state holding `[0]` is produced and makes
the print step abort. -/
theorem claim_leading_null_then_assert_witness :
    BacktraceState_AddAddress false (BacktraceState_Init mctx0) 0 =
      (true, { BacktraceState_Init mctx0 with addresses := [0] }) ∧
    PrintBacktrace 32 (fun _ => none) (fun _ => none)
      { signal_mcontext := mctx0, address_skip_count := 3, addresses := [0] } =
        none :=
  ⟨(claim_leading_null_then_assert false mctx0).1,
   (claim_leading_null_then_assert false mctx0).2 32 (fun _ => none)
     (fun _ => none) _ (by decide)⟩

theorem UnwindContext.ext_gr {a b : UnwindContext} (h : a.gr = b.gr) :
    a = b := by
  cases a
  cases b
  cases h
  rfl

theorem processRegisters_gr (thumb : Bool) (uc : UnwindContext)
    (s : BacktraceState) :
    (ProcessRegisters thumb uc s).1.gr = sigRegs s.signal_mcontext := by
  funext j
  fin_cases j <;> simp [ProcessRegisters, UnwindSetGR, sigRegs]

theorem processRegisters_state (thumb : Bool) (uc : UnwindContext)
    (s : BacktraceState) :
    (ProcessRegisters thumb uc s).2 =
      (BacktraceState_AddAddress thumb s s.signal_mcontext.arm_pc).2 :=
  rfl

theorem processRegisters_frame_independent (thumb : Bool)
    (uc1 uc2 : UnwindContext) (s : BacktraceState) :
    ProcessRegisters thumb uc1 s = ProcessRegisters thumb uc2 s := by
  refine Prod.ext_iff.mpr ⟨?_, rfl⟩
  exact UnwindContext.ext_gr
    ((processRegisters_gr thumb uc1 s).trans (processRegisters_gr thumb uc2 s).symm)

/-- C2 counterexample: on a Thumb build, with a fault context whose recorded
program counter is 5 (mode bit set), the first Strategy B callback stores 4,
not the recorded instruction pointer 5. -/
theorem claim_first_callback_ip_cex :
    (BacktraceState_Init mctxOdd).address_count = 0 ∧
    mctxOdd.arm_pc = 5 ∧
    (UnwindBacktraceWithRegistersCallback true uctx77
        (BacktraceState_Init mctxOdd)).2.2.addresses = [4] ∧
    [4] ≠ [mctxOdd.arm_pc] := by
  refine ⟨rfl, rfl, by decide, by decide⟩

/-- C2 (amended): for every state with address count zero, Strategy B's
first callback invocation is independent of the frame's own register state
(in particular it never reads the frame's instruction pointer), overrides
every general-purpose register R0–R15 of the unwind context with the fault
context's values, continues, and leaves the state holding exactly one
address: the fault context's instruction pointer with the mode tag bit
cleared on Thumb builds (the pointer itself otherwise). -/
theorem claim_first_callback_overrides (thumb : Bool)
    (uc1 uc2 : UnwindContext) (s : BacktraceState)
    (h : s.address_count = 0) :
    UnwindBacktraceWithRegistersCallback thumb uc1 s =
      UnwindBacktraceWithRegistersCallback thumb uc2 s ∧
    (UnwindBacktraceWithRegistersCallback thumb uc1 s).1 = ReasonCode.noReason ∧
    (UnwindBacktraceWithRegistersCallback thumb uc1 s).2.1.gr =
      sigRegs s.signal_mcontext ∧
    (UnwindBacktraceWithRegistersCallback thumb uc1 s).2.2.addresses =
      [stripAddr thumb s.signal_mcontext.arm_pc] := by
  have h0 : s.addresses.length = 0 := h
  have hnil : s.addresses = [] := List.length_eq_zero.mp h0
  have hfirst : ∀ uc : UnwindContext,
      UnwindBacktraceWithRegistersCallback thumb uc s =
        (ReasonCode.noReason, (ProcessRegisters thumb uc s).1,
          (ProcessRegisters thumb uc s).2) := by
    intro uc
    unfold UnwindBacktraceWithRegistersCallback
    rw [if_pos h0]
  rw [hfirst uc1, hfirst uc2, processRegisters_frame_independent thumb uc1 uc2 s]
  refine ⟨rfl, rfl, processRegisters_gr thumb uc2 s, ?_⟩
  rw [processRegisters_state, addAddress_empty thumb s _ hnil]

/-- Witness for C2: concrete first invocation on a fresh state, compared
across two different frame contexts. -/
theorem claim_first_callback_overrides_witness :
    (BacktraceState_Init mctxOdd).address_count = 0 ∧
    (UnwindBacktraceWithRegistersCallback false uctx0 (BacktraceState_Init mctxOdd) =
        UnwindBacktraceWithRegistersCallback false uctx77 (BacktraceState_Init mctxOdd) ∧
      (UnwindBacktraceWithRegistersCallback false uctx0
          (BacktraceState_Init mctxOdd)).1 = ReasonCode.noReason ∧
      (UnwindBacktraceWithRegistersCallback false uctx0
          (BacktraceState_Init mctxOdd)).2.1.gr = sigRegs mctxOdd ∧
      (UnwindBacktraceWithRegistersCallback false uctx0
          (BacktraceState_Init mctxOdd)).2.2.addresses =
        [stripAddr false mctxOdd.arm_pc]) :=
  ⟨rfl, claim_first_callback_overrides false uctx0 uctx77
    (BacktraceState_Init mctxOdd) rfl⟩

/-- C6: the first `skip_count` Strategy C callback invocations never add an
address regardless of the frame's content — each only decrements the counter
and continues — and starting from a freshly initialized state (default skip
count 3) the fourth invocation is the first that adds an address via the
collector. -/
theorem claim_skip_counter (thumb : Bool) (mctx : SigContext)
    (uc1 uc2 uc3 uc4 : UnwindContext) :
    (∀ uc s, 0 < s.address_skip_count →
      UnwindBacktraceWithSkippingCallback thumb uc s =
        (ReasonCode.noReason,
          { s with address_skip_count := s.address_skip_count - 1 })) ∧
    (UnwindBacktraceWithSkippingCallback thumb uc3
        (UnwindBacktraceWithSkippingCallback thumb uc2
          (UnwindBacktraceWithSkippingCallback thumb uc1
            (BacktraceState_Init mctx)).2).2).2 =
      { signal_mcontext := mctx, address_skip_count := 0, addresses := [] } ∧
    (UnwindBacktraceWithSkippingCallback thumb uc4
        { signal_mcontext := mctx, address_skip_count := 0,
          addresses := [] }).2.addresses =
      [stripAddr thumb (UnwindGetIP uc4)] := by
  refine ⟨?_, ?_, ?_⟩
  · intro uc s h
    simp [UnwindBacktraceWithSkippingCallback, h]
  · simp [UnwindBacktraceWithSkippingCallback, BacktraceState_Init]
  · have hadd := addAddress_empty thumb
      ({ signal_mcontext := mctx, address_skip_count := 0,
         addresses := [] } : BacktraceState) (UnwindGetIP uc4) rfl
    simp [UnwindBacktraceWithSkippingCallback, hadd]

/-- Witness for C6: a concrete first invocation on a fresh state only
decrements the skip counter. -/
theorem claim_skip_counter_witness :
    0 < (BacktraceState_Init mctx0).address_skip_count ∧
    UnwindBacktraceWithSkippingCallback false uctx77 (BacktraceState_Init mctx0) =
      (ReasonCode.noReason,
        { BacktraceState_Init mctx0 with
          address_skip_count := (BacktraceState_Init mctx0).address_skip_count - 1 }) :=
  ⟨by decide, (claim_skip_counter false mctx0 uctx0 uctx0 uctx0 uctx0).1 uctx77
    (BacktraceState_Init mctx0) (by decide)⟩

theorem libunwindSteps_cons (thumb : Bool) (ip : Nat) (rest : List Nat)
    (s : BacktraceState) :
    LibunwindSteps thumb (ip :: rest) s =
      if (BacktraceState_AddAddress thumb s ip).1 then
        LibunwindSteps thumb rest (BacktraceState_AddAddress thumb s ip).2
      else (BacktraceState_AddAddress thumb s ip).2 :=
  rfl

theorem libunwindSteps_grows (thumb : Bool) (steps : List Nat)
    (s : BacktraceState) :
    ∃ t, (LibunwindSteps thumb steps s).addresses = s.addresses ++ t := by
  induction steps generalizing s with
  | nil => exact ⟨[], by simp [LibunwindSteps]⟩
  | cons ip rest ih =>
      rw [libunwindSteps_cons]
      by_cases hr : (BacktraceState_AddAddress thumb s ip).1 = true
      · rw [if_pos hr]
        obtain ⟨t', ht'⟩ := ih (BacktraceState_AddAddress thumb s ip).2
        rcases addAddress_addresses_cases thumb s ip with hc | hc
        · exact ⟨t', by rw [ht', hc]⟩
        · exact ⟨stripAddr thumb ip :: t', by rw [ht', hc]; simp⟩
      · rw [if_neg hr]
        rcases addAddress_addresses_cases thumb s ip with hc | hc
        · exact ⟨[], by rw [hc]; simp⟩
        · exact ⟨[stripAddr thumb ip], hc⟩

theorem libunwindSteps_mem (thumb : Bool) (steps : List Nat)
    (s : BacktraceState) (a : Nat)
    (ha : a ∈ (LibunwindSteps thumb steps s).addresses) :
    a ∈ s.addresses ∨ ∃ ip ∈ steps, a = stripAddr thumb ip := by
  induction steps generalizing s with
  | nil => exact Or.inl ha
  | cons ip rest ih =>
      rw [libunwindSteps_cons] at ha
      by_cases hr : (BacktraceState_AddAddress thumb s ip).1 = true
      · rw [if_pos hr] at ha
        rcases ih _ ha with hmem | ⟨ip', hip', he⟩
        · rcases addAddress_addresses_cases thumb s ip with hc | hc
          · rw [hc] at hmem
            exact Or.inl hmem
          · rw [hc] at hmem
            rcases List.mem_append.mp hmem with h1 | h1
            · exact Or.inl h1
            · exact Or.inr ⟨ip, List.mem_cons_self ip rest, by simpa using h1⟩
        · exact Or.inr ⟨ip', List.mem_cons_of_mem ip hip', he⟩
      · rw [if_neg hr] at ha
        rcases addAddress_addresses_cases thumb s ip with hc | hc
        · rw [hc] at ha
          exact Or.inl ha
        · rw [hc] at ha
          rcases List.mem_append.mp ha with h1 | h1
          · exact Or.inl h1
          · exact Or.inr ⟨ip, List.mem_cons_self ip rest, by simpa using h1⟩

theorem libunwindSteps_length_le (thumb : Bool) (steps : List Nat)
    (s : BacktraceState) (h : s.addresses.length ≤ address_count_max) :
    (LibunwindSteps thumb steps s).addresses.length ≤ address_count_max := by
  induction steps generalizing s with
  | nil => exact h
  | cons ip rest ih =>
      rw [libunwindSteps_cons]
      by_cases hr : (BacktraceState_AddAddress thumb s ip).1 = true
      · rw [if_pos hr]
        exact ih _ (addAddress_length_le thumb s ip h)
      · rw [if_neg hr]
        exact addAddress_length_le thumb s ip h

theorem libunwindSteps_full (thumb : Bool) (more : List Nat)
    (s : BacktraceState) (h : address_count_max ≤ s.addresses.length) :
    LibunwindSteps thumb more s = s := by
  cases more with
  | nil => rfl
  | cons ip rest =>
      rw [libunwindSteps_cons, addAddress_of_full thumb s ip h]
      simp

/-- C7: Strategy A records the fault context's instruction pointer into the
collector before any cursor step (it is the first stored address, present
even with no steps); every stored address is that pointer or the IP read
after one of the successful steps; a rejected insertion (full buffer) stops
the walk with the state unchanged; and the count stays within capacity. -/
theorem claim_cursor_walk (thumb : Bool) (mctx : SigContext)
    (steps : List Nat) :
    (LibunwindWithRegisters thumb steps (BacktraceState_Init mctx)).addresses.head? =
      some (stripAddr thumb mctx.arm_pc) ∧
    (∀ a ∈ (LibunwindWithRegisters thumb steps (BacktraceState_Init mctx)).addresses,
      a = stripAddr thumb mctx.arm_pc ∨ ∃ ip ∈ steps, a = stripAddr thumb ip) ∧
    (∀ (s2 : BacktraceState) (more : List Nat),
      address_count_max ≤ s2.address_count →
      LibunwindSteps thumb more s2 = s2) ∧
    (LibunwindWithRegisters thumb steps (BacktraceState_Init mctx)).address_count ≤
      address_count_max := by
  have haddr : (BacktraceState_AddAddress thumb (BacktraceState_Init mctx)
      (BacktraceState_Init mctx).signal_mcontext.arm_pc).2.addresses =
      [stripAddr thumb mctx.arm_pc] := by
    rw [addAddress_empty thumb _ _ rfl]
    rfl
  refine ⟨?_, ?_, ?_, ?_⟩
  · show (LibunwindSteps thumb steps _).addresses.head? = _
    obtain ⟨t, ht⟩ := libunwindSteps_grows thumb steps
      (BacktraceState_AddAddress thumb (BacktraceState_Init mctx)
        (BacktraceState_Init mctx).signal_mcontext.arm_pc).2
    rw [ht, haddr]
    rfl
  · intro a ha
    rcases libunwindSteps_mem thumb steps _ a ha with hmem | hsteps
    · rw [haddr] at hmem
      exact Or.inl (by simpa using hmem)
    · exact Or.inr hsteps
  · intro s2 more h
    exact libunwindSteps_full thumb more s2 h
  · show (LibunwindSteps thumb steps _).addresses.length ≤ address_count_max
    refine libunwindSteps_length_le thumb steps _ ?_
    rw [haddr]
    simp [address_count_max]

/-- Witness for C7: a concrete two-step walk, and a full collector stopping
the step loop unchanged. -/
theorem claim_cursor_walk_witness :
    (LibunwindWithRegisters false [10, 0] (BacktraceState_Init mctxOdd)).addresses.head? =
      some (stripAddr false mctxOdd.arm_pc) ∧
    address_count_max ≤ fullState30.address_count ∧
    LibunwindSteps false [9] fullState30 = fullState30 :=
  ⟨(claim_cursor_walk false mctxOdd [10, 0]).1, by decide,
   (claim_cursor_walk false mctxOdd []).2.2.1 fullState30 [9] (by decide)⟩

theorem printBacktraceFrom_get (w : Nat) (lookup : Nat → Option Dl_info)
    (demangle : String → Option String) (l : List Nat) (n : Nat)
    (hnz : ∀ a ∈ l, a ≠ 0) :
    ∃ frames, PrintBacktraceFrom w lookup demangle n l = some frames ∧
      frames.length = l.length ∧
      ∀ i (h : i < l.length),
        frames.get? i =
          SymbolizeAddress w lookup demangle (n + i) (l.get ⟨i, h⟩) := by
  induction l generalizing n with
  | nil => exact ⟨[], rfl, rfl, fun i h => absurd h (Nat.not_lt_zero i)⟩
  | cons a rest ih =>
      have ha : a ≠ 0 := hnz a (List.mem_cons_self a rest)
      obtain ⟨fs, hfs, hlen, hget⟩ :=
        ih (n + 1) (fun x hx => hnz x (List.mem_cons_of_mem a hx))
      simp only [PrintBacktraceFrom]
      cases hS : SymbolizeAddress w lookup demangle n a with
      | none =>
          simp [SymbolizeAddress, ha] at hS
      | some f =>
          rw [hfs]
          refine ⟨f :: fs, rfl, by simp [hlen], ?_⟩
          intro i h
          cases i with
          | zero => simpa using hS.symm
          | succ i =>
              have h' : i < rest.length := by simpa using h
              have hi := hget i h'
              rw [show n + (i + 1) = n + 1 + i by omega]
              simpa using hi

/-- C8: for a collected list of nonzero addresses, the print step always
completes (the lookup miss never fires an assertion), and every address
whose owning-module lookup fails is rendered with an empty symbol name and a
relative address computed zero-based against a null module base. -/
theorem claim_module_lookup_miss (w : Nat) (lookup : Nat → Option Dl_info)
    (demangle : String → Option String) (s : BacktraceState)
    (hnz : ∀ a ∈ BacktraceState.addresses s, a ≠ 0)
    (hw : ∀ a ∈ BacktraceState.addresses s, a < 2 ^ w)
    (hd : demangle "" = none) :
    ∃ frames, PrintBacktrace w lookup demangle s = some frames ∧
      frames.length = s.addresses.length ∧
      ∀ i (h : i < s.addresses.length),
        lookup (s.addresses.get ⟨i, h⟩) = none →
          frames.get? i = some { frame_index := i,
                                 relative_address := s.addresses.get ⟨i, h⟩,
                                 symbol_name := "" } := by
  obtain ⟨frames, hfr, hlen, hget⟩ :=
    printBacktraceFrom_get w lookup demangle s.addresses 0 hnz
  refine ⟨frames, hfr, hlen, ?_⟩
  intro i h hmiss
  have ha := hnz _ (List.get_mem s.addresses i h)
  have haw := hw _ (List.get_mem s.addresses i h)
  rw [hget i h]
  simp only [List.get_eq_getElem] at hmiss ha haw ⊢
  simp [SymbolizeAddress, ha, hmiss, hd, ptrDiff, Nat.mod_eq_of_lt haw]

/-- A state holding the single address 7, for the C8 witness. -/
def state7 : BacktraceState :=
  { signal_mcontext := mctx0, address_skip_count := 3, addresses := [7] }

/-- Witness for C8: with a lookup that always misses, the single address 7
is rendered as frame 0 at relative address 7 with an empty name, without any
assertion firing. -/
theorem claim_module_lookup_miss_witness :
    ∃ frames, PrintBacktrace 32 (fun _ => none) (fun _ => none) state7 =
        some frames ∧
      frames.length = state7.addresses.length ∧
      ∀ i (h : i < state7.addresses.length),
        (fun _ : Nat => (none : Option Dl_info)) (state7.addresses.get ⟨i, h⟩) =
            none →
          frames.get? i = some { frame_index := i,
                                 relative_address := state7.addresses.get ⟨i, h⟩,
                                 symbol_name := "" } :=
  claim_module_lookup_miss 32 (fun _ => none) (fun _ => none) state7
    (by decide) (by decide) rfl
